import Mathlib

/-!
Verification of the CoolPC catalog query engine (src/index.ts).

Strings are modelled as lists of characters (`Str`); JavaScript's
`toLowerCase`, `includes`, `startsWith`, `join(" ")` and `===` become
`lowerCase`, `includes`, `startsWith`, `joinSpace` and decidable equality.
JavaScript numbers carrying prices and limits are modelled as `Nat`
(the catalog's prices are non-negative integers); the JavaScript
truthiness test on an optional numeric argument (`min_price && ...`)
is modelled by testing the supplied value against `0`, and truthiness
of an optional string (`if (subcategory_name)`) by testing emptiness.
-/

abbrev Str := List Char

/-- JavaScript `s.toLowerCase()` on ASCII data. -/
def lowerCase (s : Str) : Str := s.map Char.toLower

/-- JavaScript `hay.startsWith(needle)` (helper for `includes`). -/
def startsWith : Str → Str → Bool
  | _, [] => true
  | [], _ :: _ => false
  | c :: cs, d :: ds => c == d && startsWith cs ds

/-- JavaScript `hay.includes(needle)`: substring containment. -/
def includes : Str → Str → Bool
  | [], needle => startsWith [] needle
  | c :: rest, needle => startsWith (c :: rest) needle || includes rest needle

/-- JavaScript `parts.join(" ")`. -/
def joinSpace : List Str → Str
  | [] => []
  | [s] => s
  | s :: t :: rest => s ++ (' ' :: joinSpace (t :: rest))

/-- Product record (interface ProductSpec, src/index.ts lines 17-28). -/
structure ProductSpec where
  index : Str
  group : Option Str
  brand : Str
  model : Str
  specs : List Str
  price : Nat
  original_price : Option Nat
  discount_amount : Option Nat
  markers : List Str
  raw_text : Str
deriving DecidableEq, Repr

/-- Subcategory record (src/index.ts lines 30-33). -/
structure Subcategory where
  name : Str
  products : List ProductSpec
deriving DecidableEq, Repr

/-- Aggregate stats of a category (src/index.ts lines 39-46). -/
structure CategoryStats where
  total_items : Nat
  hot_items : Nat
  with_images : Nat
  with_discussions : Nat
  price_changes : Nat
  time_limited : Nat
deriving DecidableEq, Repr

/-- Category record (interface ProductCategory, src/index.ts lines 35-48). -/
structure ProductCategory where
  category_id : Str
  category_name : Str
  summary : Str
  stats : CategoryStats
  subcategories : List Subcategory
deriving DecidableEq, Repr

/-- An internal search hit: the product spread together with the owning
category and subcategory names (src/index.ts lines 206-210). -/
structure SearchHit where
  product : ProductSpec
  category_name : Str
  subcategory_name : Str
deriving DecidableEq, Repr

/-- The reduced view of a search hit (src/index.ts lines 233-243). -/
structure SearchResultView where
  brand : Str
  model : Str
  specs : List Str
  price : Nat
  original_price : Option Nat
  discount_amount : Option Nat
  category : Str
  subcategory : Str
  markers : List Str
deriving DecidableEq, Repr

/-- Output of search_products (src/index.ts lines 227-247). -/
structure SearchOutput where
  total_found : Nat
  results : List SearchResultView
deriving DecidableEq, Repr

/-- The combined lowercased search text
`brand model specs.join(" ") raw_text` (src/index.ts line 192). -/
def searchText (p : ProductSpec) : Str :=
  lowerCase (p.brand ++ (' ' :: (p.model ++ (' ' :: (joinSpace p.specs ++ (' ' :: p.raw_text))))))

/-- Keyword test of search_products (src/index.ts line 194). -/
def matchesKeyword (keyword : Str) (p : ProductSpec) : Bool :=
  includes (searchText p) (lowerCase keyword)

/-- Price filter of search_products (src/index.ts lines 198-204).
`min_price && product.price < min_price` skips the product, and
symmetrically for `max_price`; a supplied `0` is falsy in JavaScript,
modelled by the `!= 0` tests. -/
def priceOk (min_price max_price : Option Nat) (price : Nat) : Bool :=
  (match min_price with
   | none => true
   | some m => !(m != 0 && decide (price < m))) &&
  (match max_price with
   | none => true
   | some m => !(m != 0 && decide (m < price)))

/-- Category filter of search_products (src/index.ts lines 186-188):
skip the category iff `category` is truthy and the lowercased
category name does not include the lowercased filter. -/
def categoryPasses (category : Option Str) (c : ProductCategory) : Bool :=
  match category with
  | none => true
  | some cf => !(!cf.isEmpty && !(includes (lowerCase c.category_name) (lowerCase cf)))

/-- The conjunction of the three per-product `continue` tests inside the
search loop (src/index.ts lines 192-204). -/
def productMatches (keyword : Str) (mn mx : Option Nat) (p : ProductSpec) : Bool :=
  matchesKeyword keyword p && priceOk mn mx p.price

/-- Inner product loop of search_products, with the early `break` once
`results.length >= limit` (src/index.ts lines 191-215). -/
def searchScanProducts (kw : Str) (mn mx : Option Nat) (limit : Nat) (cname sname : Str) :
    List ProductSpec → List SearchHit → List SearchHit
  | [], results => results
  | p :: ps, results =>
    if productMatches kw mn mx p then
      if limit ≤ (results ++ [(⟨p, cname, sname⟩ : SearchHit)]).length
        then results ++ [(⟨p, cname, sname⟩ : SearchHit)]
        else searchScanProducts kw mn mx limit cname sname ps
          (results ++ [(⟨p, cname, sname⟩ : SearchHit)])
    else searchScanProducts kw mn mx limit cname sname ps results

/-- Subcategory loop of search_products (src/index.ts lines 190-220). -/
def searchScanSubcats (kw : Str) (mn mx : Option Nat) (limit : Nat) (cname : Str) :
    List Subcategory → List SearchHit → List SearchHit
  | [], results => results
  | s :: ss, results =>
    if limit ≤ (searchScanProducts kw mn mx limit cname s.name s.products results).length
      then searchScanProducts kw mn mx limit cname s.name s.products results
      else searchScanSubcats kw mn mx limit cname ss
        (searchScanProducts kw mn mx limit cname s.name s.products results)

/-- Category loop of search_products (src/index.ts lines 185-225). -/
def searchScanCats (kw : Str) (category : Option Str) (mn mx : Option Nat) (limit : Nat) :
    List ProductCategory → List SearchHit → List SearchHit
  | [], results => results
  | c :: cs, results =>
    if categoryPasses category c then
      if limit ≤ (searchScanSubcats kw mn mx limit c.category_name c.subcategories results).length
        then searchScanSubcats kw mn mx limit c.category_name c.subcategories results
        else searchScanCats kw category mn mx limit cs
          (searchScanSubcats kw mn mx limit c.category_name c.subcategories results)
    else searchScanCats kw category mn mx limit cs results

/-- The final mapping of a hit to its reduced view (src/index.ts lines 233-243). -/
def toSearchView (h : SearchHit) : SearchResultView :=
  ⟨h.product.brand, h.product.model, h.product.specs, h.product.price,
    h.product.original_price, h.product.discount_amount,
    h.category_name, h.subcategory_name, h.product.markers⟩

/-- searchProducts (src/index.ts lines 181-248). -/
def searchProducts (data : List ProductCategory) (keyword : Str) (category : Option Str)
    (min_price max_price : Option Nat) (limit : Nat) : SearchOutput :=
  let results := searchScanCats keyword category min_price max_price limit data []
  ⟨results.length, results.map toSearchView⟩

/-- The hits among a product list, in stored order (specification-side
list used to state what the traversal collects). -/
def productHits (kw : Str) (mn mx : Option Nat) (cname sname : Str)
    (ps : List ProductSpec) : List SearchHit :=
  (ps.filter (productMatches kw mn mx)).map (fun p => ⟨p, cname, sname⟩)

/-- The hits of one subcategory, in stored order. -/
def subcatHits (kw : Str) (mn mx : Option Nat) (cname : Str) (s : Subcategory) : List SearchHit :=
  productHits kw mn mx cname s.name s.products

/-- The hits of one category, in stored order. -/
def catHits (kw : Str) (mn mx : Option Nat) (c : ProductCategory) : List SearchHit :=
  (c.subcategories.map (subcatHits kw mn mx c.category_name)).flatten

/-- All keyword/category/price matches of the whole catalog, in catalog
traversal order. -/
def allMatches (data : List ProductCategory) (kw : Str) (category : Option Str)
    (mn mx : Option Nat) : List SearchHit :=
  ((data.filter (categoryPasses category)).map (catHits kw mn mx)).flatten

/-- Full product detail returned by get_product_by_model on a hit,
including raw_text (src/index.ts lines 263-274). -/
structure ProductDetailView where
  brand : Str
  model : Str
  specs : List Str
  price : Nat
  original_price : Option Nat
  discount_amount : Option Nat
  category : Str
  subcategory : Str
  markers : List Str
  raw_text : Str
deriving DecidableEq, Repr

/-- Result of get_product_by_model: either the detail (found:true) or a
found:false message (src/index.ts lines 257-294). -/
inductive ModelResult where
  | found (product : ProductDetailView)
  | notFound (message : Str)
deriving DecidableEq, Repr

def mkDetail (cname sname : Str) (p : ProductSpec) : ProductDetailView :=
  ⟨p.brand, p.model, p.specs, p.price, p.original_price, p.discount_amount,
    cname, sname, p.markers, p.raw_text⟩

/-- The miss message of get_product_by_model (src/index.ts line 290). -/
def notFoundModelMsg (model : Str) : Str :=
  "Product with model \"".data ++ model ++ "\" not found".data

/-- Inner product loop of getProductByModel (src/index.ts lines 255-280):
first product whose lowercased model equals the lowercased query. -/
def getByModelScanProducts (model cname sname : Str) : List ProductSpec → Option ProductDetailView
  | [] => none
  | p :: ps =>
    if lowerCase p.model = lowerCase model then some (mkDetail cname sname p)
    else getByModelScanProducts model cname sname ps

/-- Subcategory loop of getProductByModel (src/index.ts lines 254-281). -/
def getByModelScanSubcats (model cname : Str) : List Subcategory → Option ProductDetailView
  | [] => none
  | s :: ss =>
    match getByModelScanProducts model cname s.name s.products with
    | some d => some d
    | none => getByModelScanSubcats model cname ss

/-- Category loop of getProductByModel (src/index.ts lines 253-282). -/
def getByModelScanCats (model : Str) : List ProductCategory → Option ProductDetailView
  | [] => none
  | c :: cs =>
    match getByModelScanSubcats model c.category_name c.subcategories with
    | some d => some d
    | none => getByModelScanCats model cs

/-- getProductByModel (src/index.ts lines 250-295). -/
def getProductByModel (data : List ProductCategory) (model : Str) : ModelResult :=
  match getByModelScanCats model data with
  | some d => .found d
  | none => .notFound (notFoundModelMsg model)

/-- The whole catalog flattened into (category_name, subcategory_name, product)
triples in traversal order (specification-side list used to state the
first-match contract of getProductByModel). -/
def allEntries (data : List ProductCategory) : List (Str × Str × ProductSpec) :=
  (data.map (fun c =>
    (c.subcategories.map (fun s =>
      s.products.map (fun p => (c.category_name, s.name, p)))).flatten)).flatten

/-- Per-subcategory view of list_categories (src/index.ts lines 302-305). -/
structure SubcatCountView where
  name : Str
  product_count : Nat
deriving DecidableEq, Repr

/-- Per-category view of list_categories (src/index.ts lines 298-306). -/
structure CategoryListView where
  category_id : Str
  category_name : Str
  stats : CategoryStats
  subcategories : List SubcatCountView
deriving DecidableEq, Repr

/-- Output of list_categories (src/index.ts lines 308-318). -/
structure ListCategoriesOutput where
  total_categories : Nat
  categories : List CategoryListView
deriving DecidableEq, Repr

/-- listCategories (src/index.ts lines 297-319). -/
def listCategories (data : List ProductCategory) : ListCategoriesOutput :=
  let categories := data.map (fun c =>
    CategoryListView.mk c.category_id c.category_name c.stats
      (c.subcategories.map (fun s => SubcatCountView.mk s.name s.products.length)))
  ⟨categories.length, categories⟩

/-- Product view of get_category_products (src/index.ts lines 377-386). -/
structure CategoryProductView where
  brand : Str
  model : Str
  specs : List Str
  price : Nat
  original_price : Option Nat
  discount_amount : Option Nat
  subcategory : Str
  markers : List Str
deriving DecidableEq, Repr

/-- Result of get_category_products: the found:false shapes at
src/index.ts lines 326-337 and 348-360, or the found payload at
lines 388-401. -/
inductive CategoryProductsResult where
  | notFound (message : Str)
  | ok (category_name : Str) (subcategory_filter : Option Str)
      (total_products : Nat) (showing : Nat) (products : List CategoryProductView)
deriving DecidableEq, Repr

/-- Category miss message (src/index.ts line 332). -/
def catNotFoundMsg (category_id : Str) : Str :=
  "Category with ID \"".data ++ category_id ++ "\" not found".data

/-- Subcategory miss message (src/index.ts line 355). -/
def subNotFoundMsg (sname cname : Str) : Str :=
  "Subcategory \"".data ++ sname ++ "\" not found in category \"".data ++ cname ++ "\"".data

/-- A product annotated with its subcategory name, as built by the
spread at src/index.ts lines 363-366 and 370-373. -/
def toCategoryProductView (e : ProductSpec × Str) : CategoryProductView :=
  ⟨e.1.brand, e.1.model, e.1.specs, e.1.price, e.1.original_price,
    e.1.discount_amount, e.2, e.1.markers⟩

/-- All products of a category across its subcategories in source order,
each tagged with its subcategory name (src/index.ts lines 368-374). -/
def categoryAllProducts (category : ProductCategory) : List (ProductSpec × Str) :=
  (category.subcategories.map (fun s => s.products.map (fun p => (p, s.name)))).flatten

/-- Shared tail of get_category_products: slice to `limit`, reduce to the
view, report counts (src/index.ts lines 377-401). -/
def mkCategoryOk (category : ProductCategory) (subcategoryInfo : Option Str)
    (allProducts : List (ProductSpec × Str)) (limit : Nat) : CategoryProductsResult :=
  let products := (allProducts.take limit).map toCategoryProductView
  .ok category.category_name subcategoryInfo allProducts.length products.length products

/-- getCategoryProducts (src/index.ts lines 321-402). `category_id` is
compared with `===` (exact); `if (subcategory_name)` is truthy only for a
supplied non-empty string, so `some []` takes the all-subcategories
branch; the subcategory lookup lowercases both sides. -/
def getCategoryProducts (data : List ProductCategory) (category_id : Str)
    (subcategory_name : Option Str) (limit : Nat) : CategoryProductsResult :=
  match data.find? (fun c => decide (c.category_id = category_id)) with
  | none => .notFound (catNotFoundMsg category_id)
  | some category =>
    match subcategory_name with
    | some sname =>
      if sname.isEmpty then mkCategoryOk category none (categoryAllProducts category) limit
      else
        match category.subcategories.find? (fun s => decide (lowerCase s.name = lowerCase sname)) with
        | none => .notFound (subNotFoundMsg sname category.category_name)
        | some subcategory =>
          mkCategoryOk category (some subcategory.name)
            (subcategory.products.map (fun p => (p, subcategory.name))) limit
    | none => mkCategoryOk category none (categoryAllProducts category) limit

/-- The total_products field of an ok result. -/
def totalProductsOf : CategoryProductsResult → Option Nat
  | .ok _ _ t _ _ => some t
  | .notFound _ => none

/-- The subcategory_filter field of an ok result. -/
def subFilterOf : CategoryProductsResult → Option Str
  | .ok _ f _ _ _ => f
  | .notFound _ => none

/-- loadProductData (src/index.ts lines 71-79): reading and parsing the
document is fallible; on failure the handler catches and leaves the
field at its initializer `[]` (line 52). The fallible read/parse is
modelled as an `Except` value supplied by the environment. -/
def loadProductData (doc : Except Str (List ProductCategory)) : List ProductCategory :=
  match doc with
  | .ok data => data
  | .error _ => []

/-- A tool request as dispatched by the CallToolRequestSchema handler
(src/index.ts lines 163-178); optional numeric arguments carry their
defaulting at the destructuring sites (lines 182 and 322). -/
inductive ToolRequest where
  | search_products (keyword : Str) (category : Option Str)
      (min_price max_price : Option Nat) (limit : Option Nat)
  | get_product_by_model (model : Str)
  | list_categories
  | get_category_products (category_id : Str) (subcategory_name : Option Str) (limit : Option Nat)
  | unknown (name : Str)
deriving DecidableEq, Repr

/-- A tool response payload. -/
inductive ToolResponse where
  | searchResult (o : SearchOutput)
  | modelResult (r : ModelResult)
  | categoriesResult (o : ListCategoriesOutput)
  | categoryProductsResult (r : CategoryProductsResult)
deriving DecidableEq, Repr

/-- The server state: the catalog snapshot (src/index.ts line 52). -/
structure ServerState where
  productData : List ProductCategory
deriving DecidableEq, Repr

/-- The request dispatcher (src/index.ts lines 163-178), in explicit
state-passing form: every query reads the catalog and returns it
unchanged; an unknown tool name throws. -/
def handleToolCall (st : ServerState) (req : ToolRequest) : Except Str ToolResponse × ServerState :=
  match req with
  | .search_products kw cat mn mx lim =>
    (.ok (.searchResult (searchProducts st.productData kw cat mn mx (lim.getD 10))), st)
  | .get_product_by_model m =>
    (.ok (.modelResult (getProductByModel st.productData m)), st)
  | .list_categories =>
    (.ok (.categoriesResult (listCategories st.productData)), st)
  | .get_category_products id subn lim =>
    (.ok (.categoryProductsResult (getCategoryProducts st.productData id subn (lim.getD 20))), st)
  | .unknown n =>
    (.error ("Unknown tool: ".data ++ n), st)

/-- Example product for concrete instances (boundary scenario of the spec). -/
def exProduct1 : ProductSpec :=
  ⟨"1".data, none, "Intel".data, "i5-13400".data, ["10core".data], 6000,
    none, none, [], "Intel i5-13400 10core".data⟩

def exSubcat1 : Subcategory := ⟨"Intel".data, [exProduct1]⟩

def exCat1 : ProductCategory :=
  ⟨"C1".data, "CPU".data, [], ⟨1, 0, 0, 0, 0, 0⟩, [exSubcat1]⟩

def exData1 : List ProductCategory := [exCat1]

/-- Products with pairwise distinct models, all matching keyword "x". -/
def exP2 (n : Nat) : ProductSpec :=
  ⟨[], none, [], List.replicate (n + 1) 'a', [], 100, none, none, [], "x".data⟩

def exSubcat2 : Subcategory := ⟨"S".data, (List.range 11).map exP2⟩

def exData2 : List ProductCategory :=
  [⟨"C1".data, "CPU".data, [], ⟨11, 0, 0, 0, 0, 0⟩, [exSubcat2]⟩]

def exStats5 : CategoryStats := ⟨2, 0, 0, 0, 0, 0⟩

def exSubcatA : Subcategory := ⟨"Intel".data, [exProduct1, exP2 0]⟩

def exSubcatB : Subcategory := ⟨"AMD".data, [exP2 1]⟩

def exCat5 : ProductCategory := ⟨"C9".data, "CPU".data, [], exStats5, [exSubcatA, exSubcatB]⟩

def exData5 : List ProductCategory := [exCat1, exCat5]

def exState : ServerState := ⟨exData1⟩

/-- All products passing only the category and price filters, annotated,
in catalog traversal order (specification-side list for the
empty-keyword behavior). -/
def allCatPriceHits (data : List ProductCategory) (category : Option Str)
    (mn mx : Option Nat) : List SearchHit :=
  ((data.filter (categoryPasses category)).map (fun c =>
    (c.subcategories.map (fun s =>
      (s.products.filter (fun p => priceOk mn mx p.price)).map
        (fun p => ⟨p, c.category_name, s.name⟩))).flatten)).flatten

example : lowerCase ("AbC".data) = "abc".data := by decide

example : includes ("intel i5".data) ("i5".data) = true := by decide

example : includes ("intel i5".data) [] = true := by decide

example : joinSpace ["ab".data, "cd".data] = "ab cd".data := by decide

example : (searchProducts exData1 ("i5".data) none none none 10).results.length = 1 := by decide

example : (searchProducts exData1 ("i5".data) none none none 0).results.length = 1 := by decide

example : (searchProducts exData1 ("i5".data) none none (some 0) 10).results.length = 1 := by decide

example : (searchProducts exData1 ("i5".data) none (some 7000) none 10).results.length = 0 := by
  decide

example : (searchProducts exData1 ("i5".data) none none (some 5999) 10).results.length = 0 := by
  decide

example : (searchProducts exData1 ("i5".data) none (some 5000) (some 7000) 10).results.length = 1 := by
  decide

example : (searchProducts exData2 ("x".data) none none none 10).results.length = 10 := by decide

example :
    toSearchView ⟨exP2 10, "CPU".data, "S".data⟩ ∉
      (searchProducts exData2 ("x".data) none none none 10).results := by decide

example : getProductByModel exData1 ("I5-13400".data) =
    .found (mkDetail ("CPU".data) ("Intel".data) exProduct1) := by decide

example : getProductByModel exData1 ("zz".data) =
    .notFound (notFoundModelMsg ("zz".data)) := by decide

example : totalProductsOf (getCategoryProducts exData1 ("C1".data) (some ("intel".data)) 20) =
    some 1 := by decide

example : getCategoryProducts exData1 ("C2".data) none 20 =
    .notFound (catNotFoundMsg ("C2".data)) := by decide

example : getCategoryProducts exData1 ("C1".data) (some []) 20 =
    getCategoryProducts exData1 ("C1".data) none 20 := by decide

theorem lowerCase_append (a b : Str) : lowerCase (a ++ b) = lowerCase a ++ lowerCase b :=
  List.map_append Char.toLower a b

theorem startsWith_append_self (s t : Str) : startsWith (s ++ t) s = true := by
  induction s with
  | nil => cases t <;> rfl
  | cons c cs ih => simp [startsWith, ih]

theorem includes_of_startsWith {hay needle : Str} (h : startsWith hay needle = true) :
    includes hay needle = true := by
  cases hay with
  | nil => exact h
  | cons c rest => simp [includes, h]

theorem includes_append_left {hay needle : Str} (pre : Str)
    (h : includes hay needle = true) : includes (pre ++ hay) needle = true := by
  induction pre with
  | nil => exact h
  | cons c pre ih => simp [includes, ih]

theorem includes_append_self (pre s post : Str) : includes (pre ++ (s ++ post)) s = true :=
  includes_append_left pre (includes_of_startsWith (startsWith_append_self s post))

theorem includes_nil (hay : Str) : includes hay [] = true := by
  cases hay <;> simp [includes, startsWith]

theorem searchScanProducts_eq (kw : Str) (mn mx : Option Nat) (limit : Nat) (cname sname : Str) :
    ∀ (ps : List ProductSpec) (results : List SearchHit), results.length < limit →
      searchScanProducts kw mn mx limit cname sname ps results
        = results ++ (productHits kw mn mx cname sname ps).take (limit - results.length) := by
  intro ps
  induction ps with
  | nil => intro results h; simp [searchScanProducts, productHits]
  | cons p ps ih =>
    intro results h
    by_cases hm : productMatches kw mn mx p = true
    · rw [searchScanProducts, if_pos hm]
      simp only [List.length_append, List.length_cons, List.length_nil]
      by_cases hl : limit ≤ results.length + (0 + 1)
      · rw [if_pos hl]
        have h1 : limit - results.length = 1 := by omega
        simp [productHits, List.filter_cons_of_pos hm, h1]
      · rw [if_neg hl]
        have h2 : (results ++ [(⟨p, cname, sname⟩ : SearchHit)]).length < limit := by
          simp; omega
        rw [ih _ h2]
        have h3 : limit - (results ++ [(⟨p, cname, sname⟩ : SearchHit)]).length
            = limit - results.length - 1 := by simp; omega
        have h4 : limit - results.length = (limit - results.length - 1) + 1 := by omega
        simp only [productHits, List.filter_cons_of_pos hm, List.map_cons, h3]
        rw [h4, List.take_succ_cons, List.append_assoc]
        rfl
    · rw [searchScanProducts, if_neg hm, ih _ h]
      simp only [productHits, List.filter_cons_of_neg hm]

theorem stepTake {γ : Type} (limit : Nat) (F : List γ → List γ) (A B results : List γ)
    (h : results.length < limit)
    (hF : ∀ r : List γ, r.length < limit → F r = r ++ B.take (limit - r.length)) :
    (if limit ≤ (results ++ A.take (limit - results.length)).length
      then results ++ A.take (limit - results.length)
      else F (results ++ A.take (limit - results.length)))
    = results ++ (A ++ B).take (limit - results.length) := by
  have hlen : (results ++ A.take (limit - results.length)).length
      = results.length + min (limit - results.length) A.length := by
    rw [List.length_append, List.length_take]
  have hminl : min (limit - results.length) A.length ≤ limit - results.length :=
    Nat.min_le_left _ _
  have hminr : min (limit - results.length) A.length ≤ A.length := Nat.min_le_right _ _
  have hminc : min (limit - results.length) A.length = limit - results.length ∨
      min (limit - results.length) A.length = A.length := min_choice _ _
  by_cases hl : limit ≤ (results ++ A.take (limit - results.length)).length
  · rw [if_pos hl, List.take_append_eq_append_take]
    rw [hlen] at hl
    have hz : limit - results.length - A.length = 0 := by omega
    rw [hz, List.take_zero, List.append_nil]
  · rw [if_neg hl]
    rw [hlen] at hl
    have hAlt : A.length < limit - results.length := by omega
    have hAtake : A.take (limit - results.length) = A := List.take_of_length_le (le_of_lt hAlt)
    rw [hAtake, hF _ (by rw [List.length_append]; omega)]
    rw [List.take_append_eq_append_take, hAtake, List.append_assoc]
    have heq : limit - (results ++ A).length = limit - results.length - A.length := by
      rw [List.length_append]; omega
    rw [heq]

theorem searchScanSubcats_eq (kw : Str) (mn mx : Option Nat) (limit : Nat) (cname : Str) :
    ∀ (ss : List Subcategory) (results : List SearchHit), results.length < limit →
      searchScanSubcats kw mn mx limit cname ss results
        = results ++ ((ss.map (subcatHits kw mn mx cname)).flatten).take (limit - results.length) := by
  intro ss
  induction ss with
  | nil => intro results h; simp [searchScanSubcats]
  | cons s ss ih =>
    intro results h
    rw [searchScanSubcats,
      searchScanProducts_eq kw mn mx limit cname s.name s.products results h,
      List.map_cons, List.flatten_cons]
    exact stepTake limit _ (subcatHits kw mn mx cname s) _ results h (fun r hr => ih r hr)

theorem searchScanCats_eq (kw : Str) (category : Option Str) (mn mx : Option Nat) (limit : Nat) :
    ∀ (cs : List ProductCategory) (results : List SearchHit), results.length < limit →
      searchScanCats kw category mn mx limit cs results
        = results ++ (((cs.filter (categoryPasses category)).map (catHits kw mn mx)).flatten).take
            (limit - results.length) := by
  intro cs
  induction cs with
  | nil => intro results h; simp [searchScanCats]
  | cons c cs ih =>
    intro results h
    by_cases hc : categoryPasses category c = true
    · rw [searchScanCats, if_pos hc,
        searchScanSubcats_eq kw mn mx limit c.category_name c.subcategories results h,
        List.filter_cons_of_pos hc, List.map_cons, List.flatten_cons]
      exact stepTake limit _ (catHits kw mn mx c) _ results h (fun r hr => ih r hr)
    · rw [searchScanCats, if_neg hc, ih _ h, List.filter_cons_of_neg hc]

theorem searchProducts_eq_take (data : List ProductCategory) (kw : Str) (category : Option Str)
    (mn mx : Option Nat) (limit : Nat) (h : 1 ≤ limit) :
    searchProducts data kw category mn mx limit
      = ⟨min limit (allMatches data kw category mn mx).length,
          ((allMatches data kw category mn mx).take limit).map toSearchView⟩ := by
  unfold searchProducts
  rw [searchScanCats_eq kw category mn mx limit data [] (by simpa using h)]
  simp only [allMatches, List.nil_append, List.length_nil, Nat.sub_zero, List.length_take]

theorem searchScanProducts_sound (kw : Str) (mn mx : Option Nat) (limit : Nat)
    (cname sname : Str) :
    ∀ (ps : List ProductSpec) (results : List SearchHit),
      (∀ x ∈ results, productMatches kw mn mx x.product = true) →
      ∀ x ∈ searchScanProducts kw mn mx limit cname sname ps results,
        productMatches kw mn mx x.product = true := by
  intro ps
  induction ps with
  | nil => intro results hres; simpa [searchScanProducts] using hres
  | cons p ps ih =>
    intro results hres
    by_cases hm : productMatches kw mn mx p = true
    · have hres2 : ∀ x ∈ results ++ [(⟨p, cname, sname⟩ : SearchHit)],
          productMatches kw mn mx x.product = true := by
        intro y hy
        rcases List.mem_append.mp hy with h1 | h1
        · exact hres y h1
        · have hy2 : y = ⟨p, cname, sname⟩ := List.mem_singleton.mp h1
          subst hy2; exact hm
      rw [searchScanProducts, if_pos hm]
      split
      · exact hres2
      · exact ih _ hres2
    · rw [searchScanProducts, if_neg hm]
      exact ih _ hres

theorem searchScanSubcats_sound (kw : Str) (mn mx : Option Nat) (limit : Nat) (cname : Str) :
    ∀ (ss : List Subcategory) (results : List SearchHit),
      (∀ x ∈ results, productMatches kw mn mx x.product = true) →
      ∀ x ∈ searchScanSubcats kw mn mx limit cname ss results,
        productMatches kw mn mx x.product = true := by
  intro ss
  induction ss with
  | nil => intro results hres; simpa [searchScanSubcats] using hres
  | cons s ss ih =>
    intro results hres
    have hres2 := searchScanProducts_sound kw mn mx limit cname s.name s.products results hres
    rw [searchScanSubcats]
    split
    · exact hres2
    · exact ih _ hres2

theorem searchScanCats_sound (kw : Str) (category : Option Str) (mn mx : Option Nat)
    (limit : Nat) :
    ∀ (cs : List ProductCategory) (results : List SearchHit),
      (∀ x ∈ results, productMatches kw mn mx x.product = true) →
      ∀ x ∈ searchScanCats kw category mn mx limit cs results,
        productMatches kw mn mx x.product = true := by
  intro cs
  induction cs with
  | nil => intro results hres; simpa [searchScanCats] using hres
  | cons c cs ih =>
    intro results hres
    by_cases hc : categoryPasses category c = true
    · have hres2 := searchScanSubcats_sound kw mn mx limit c.category_name c.subcategories
        results hres
      rw [searchScanCats, if_pos hc]
      split
      · exact hres2
      · exact ih _ hres2
    · rw [searchScanCats, if_neg hc]
      exact ih _ hres

theorem searchProducts_results_sound (data : List ProductCategory) (kw : Str)
    (category : Option Str) (mn mx : Option Nat) (limit : Nat) :
    ∀ r ∈ (searchProducts data kw category mn mx limit).results,
      ∃ h : SearchHit, r = toSearchView h ∧ productMatches kw mn mx h.product = true := by
  intro r hr
  unfold searchProducts at hr
  rcases List.mem_map.mp hr with ⟨x, hmem, rfl⟩
  exact ⟨x, rfl, searchScanCats_sound kw category mn mx limit data [] (by simp) x hmem⟩

theorem mem_allMatches {data : List ProductCategory} {kw : Str} {catf : Option Str}
    {mn mx : Option Nat} {c : ProductCategory} {s : Subcategory} {p : ProductSpec}
    (hc : c ∈ data) (hs : s ∈ c.subcategories) (hp : p ∈ s.products)
    (hcat : categoryPasses catf c = true) (hm : productMatches kw mn mx p = true) :
    (⟨p, c.category_name, s.name⟩ : SearchHit) ∈ allMatches data kw catf mn mx := by
  unfold allMatches
  apply List.mem_flatten.mpr
  refine ⟨catHits kw mn mx c, List.mem_map_of_mem _ (List.mem_filter.mpr ⟨hc, hcat⟩), ?_⟩
  unfold catHits
  apply List.mem_flatten.mpr
  refine ⟨subcatHits kw mn mx c.category_name s, List.mem_map_of_mem _ hs, ?_⟩
  unfold subcatHits productHits
  exact List.mem_map_of_mem _ (List.mem_filter.mpr ⟨hp, hm⟩)

theorem includes_lowerCase_suffix (pre suffix kw : Str)
    (h : includes (lowerCase suffix) kw = true) :
    includes (lowerCase (pre ++ suffix)) kw = true := by
  rw [lowerCase_append]
  exact includes_append_left _ h

/-- Claim C1: for every catalog and every search call with a positive
`limit`, the result sequence has at most `limit` elements, and equals the
first `limit` products (in catalog traversal order) satisfying the
keyword, category and price filters. (Amended: the claim as frozen also
covers `limit = 0`, where the code appends the first match before testing
the limit, so one result can be returned; see the counterexample.) -/
theorem claim_C1_search_limit (data : List ProductCategory) (kw : Str) (category : Option Str)
    (mn mx : Option Nat) (limit : Nat) (h : 1 ≤ limit) :
    (searchProducts data kw category mn mx limit).results.length ≤ limit ∧
    (searchProducts data kw category mn mx limit).results
      = ((allMatches data kw category mn mx).take limit).map toSearchView := by
  rw [searchProducts_eq_take data kw category mn mx limit h]
  refine ⟨?_, rfl⟩
  simp [List.length_take]

/-- Claim C1 witness: at the one-product example catalog with limit 10. -/
theorem claim_C1_witness :
    1 ≤ 10 ∧
    ((searchProducts exData1 ("i5".data) none none none 10).results.length ≤ 10 ∧
      (searchProducts exData1 ("i5".data) none none none 10).results
        = ((allMatches exData1 ("i5".data) none none none).take 10).map toSearchView) :=
  ⟨by decide, claim_C1_search_limit exData1 ("i5".data) none none none 10 (by decide)⟩

/-- Claim C1 counterexample: with `limit = 0` and one matching product the
code returns 1 result, exceeding the limit (the push at src/index.ts
line 206 happens before the limit test at line 212). -/
theorem claim_C1_counterexample :
    ¬ ((searchProducts exData1 ("i5".data) none none none 0).results.length ≤ 0) := by decide

/-- Claim C2 counterexample: a catalog of 11 products whose raw_text all
contain the keyword; with no optional filters the limit defaults to 10,
so the 11th matching product is not in the result set even though the
keyword is a verbatim substring of its raw_text. -/
theorem claim_C2_counterexample :
    includes (lowerCase (exP2 10).raw_text) (lowerCase ("x".data)) = true ∧
    exP2 10 ∈ exSubcat2.products ∧
    toSearchView ⟨exP2 10, "CPU".data, "S".data⟩ ∉
      (searchProducts exData2 ("x".data) none none none 10).results := by decide

/-- Claim C2 (amended): if the keyword is a verbatim case-insensitive
substring of a cataloged product's raw_text, then search_products with
that keyword and no category or price filter returns that product —
provided the total number of keyword matches in the catalog does not
exceed the limit (the cap silently drops later matches, see the
counterexample). -/
theorem claim_C2_substring_complete (data : List ProductCategory) (kw : Str)
    (c : ProductCategory) (s : Subcategory) (p : ProductSpec) (limit : Nat)
    (hc : c ∈ data) (hs : s ∈ c.subcategories) (hp : p ∈ s.products)
    (hinc : includes (lowerCase p.raw_text) (lowerCase kw) = true)
    (hlim : (allMatches data kw none none none).length ≤ limit) :
    toSearchView ⟨p, c.category_name, s.name⟩ ∈
      (searchProducts data kw none none none limit).results := by
  have hshape : searchText p
      = lowerCase ((p.brand ++ (' ' :: (p.model ++ (' ' :: (joinSpace p.specs ++ [' '])))))
          ++ p.raw_text) := by
    unfold searchText
    congr 1
    simp [List.append_assoc]
  have hmk : matchesKeyword kw p = true := by
    unfold matchesKeyword
    rw [hshape, lowerCase_append]
    exact includes_append_left _ hinc
  have hpm : productMatches kw none none p = true := by
    unfold productMatches priceOk
    simp [hmk]
  have hmem : (⟨p, c.category_name, s.name⟩ : SearchHit) ∈ allMatches data kw none none none :=
    mem_allMatches hc hs hp rfl hpm
  have hone : 1 ≤ limit :=
    le_trans (List.length_pos.mpr (List.ne_nil_of_mem hmem)) hlim
  rw [searchProducts_eq_take data kw none none none limit hone]
  simp only
  rw [List.take_of_length_le hlim]
  exact List.mem_map_of_mem _ hmem

/-- Claim C2 witness: the boundary-scenario catalog, keyword "i5". -/
theorem claim_C2_witness :
    (exCat1 ∈ exData1 ∧ exSubcat1 ∈ exCat1.subcategories ∧ exProduct1 ∈ exSubcat1.products ∧
      includes (lowerCase exProduct1.raw_text) (lowerCase ("i5".data)) = true ∧
      (allMatches exData1 ("i5".data) none none none).length ≤ 10) ∧
    toSearchView ⟨exProduct1, exCat1.category_name, exSubcat1.name⟩ ∈
      (searchProducts exData1 ("i5".data) none none none 10).results :=
  ⟨⟨by decide, by decide, by decide, by decide, by decide⟩,
    claim_C2_substring_complete exData1 ("i5".data) exCat1 exSubcat1 exProduct1 10
      (by decide) (by decide) (by decide) (by decide) (by decide)⟩

/-- Claim C3 (amended: nonzero bounds): a supplied nonzero min_price or
max_price is an inclusive bound on the price of every returned product —
every result's price passes the bound test, and the bound test accepts
exactly the prices within the supplied nonzero bounds. A supplied bound
of 0 is falsy in JavaScript and is treated as absent (see the
counterexample). -/
theorem claim_C3_price_bounds (mn mx : Option Nat) :
    (∀ price, priceOk mn mx price = true ↔
      ((∀ m, mn = some m → m ≠ 0 → m ≤ price) ∧ (∀ m, mx = some m → m ≠ 0 → price ≤ m))) ∧
    (∀ (data : List ProductCategory) (kw : Str) (category : Option Str) (limit : Nat) r,
      r ∈ (searchProducts data kw category mn mx limit).results →
        priceOk mn mx r.price = true) := by
  constructor
  · intro price
    cases mn <;> cases mx <;> simp [priceOk] <;> omega
  · intro data kw category limit r hr
    rcases searchProducts_results_sound data kw category mn mx limit r hr with ⟨x, rfl, hm⟩
    have hm2 : matchesKeyword kw x.product = true ∧ priceOk mn mx x.product.price = true := by
      simpa [productMatches] using hm
    exact hm2.2

/-- Claim C3 witness: bounds 5000..7000 admit the product priced 6000. -/
theorem claim_C3_witness :
    (toSearchView ⟨exProduct1, "CPU".data, "Intel".data⟩ ∈
      (searchProducts exData1 ("i5".data) none (some 5000) (some 7000) 10).results) ∧
    priceOk (some 5000) (some 7000)
      (toSearchView ⟨exProduct1, "CPU".data, "Intel".data⟩).price = true :=
  ⟨by decide,
    (claim_C3_price_bounds (some 5000) (some 7000)).2 exData1 ("i5".data) none 10
      (toSearchView ⟨exProduct1, "CPU".data, "Intel".data⟩) (by decide)⟩

/-- Claim C3 counterexample: with `max_price = 0` supplied, the product
priced 6000 is still returned (JavaScript `max_price &&` treats 0 as
absent), although the claim says every product with price strictly above
the supplied max_price is excluded. -/
theorem claim_C3_counterexample :
    (searchProducts exData1 ("i5".data) none none (some 0) 10).results.map
        (fun r => r.price) = [6000] ∧ ¬ (6000 ≤ (0 : Nat)) := by decide

theorem getByModelScanProducts_eq (model cname sname : Str) :
    ∀ ps : List ProductSpec,
      getByModelScanProducts model cname sname ps
        = ((ps.map (fun p => (cname, sname, p))).find?
            (fun e => decide (lowerCase e.2.2.model = lowerCase model))).map
            (fun e => mkDetail e.1 e.2.1 e.2.2) := by
  intro ps
  induction ps with
  | nil => rfl
  | cons p ps ih =>
    rw [getByModelScanProducts, List.map_cons]
    by_cases h : lowerCase p.model = lowerCase model
    · rw [if_pos h, List.find?_cons_of_pos _ (by simpa using h)]
      rfl
    · rw [if_neg h, ih, List.find?_cons_of_neg _ (by simpa using h)]

theorem getByModelScanSubcats_eq (model cname : Str) :
    ∀ ss : List Subcategory,
      getByModelScanSubcats model cname ss
        = (((ss.map (fun s => s.products.map (fun p => (cname, s.name, p)))).flatten).find?
            (fun e => decide (lowerCase e.2.2.model = lowerCase model))).map
            (fun e => mkDetail e.1 e.2.1 e.2.2) := by
  intro ss
  induction ss with
  | nil => rfl
  | cons s ss ih =>
    rw [getByModelScanSubcats, getByModelScanProducts_eq model cname s.name s.products,
      List.map_cons, List.flatten_cons, List.find?_append]
    cases h : (s.products.map (fun p => (cname, s.name, p))).find?
        (fun e => decide (lowerCase e.2.2.model = lowerCase model)) with
    | none => simp [h, ih, Option.or]
    | some e => simp [h, Option.or]

theorem getByModelScanCats_eq (model : Str) :
    ∀ cs : List ProductCategory,
      getByModelScanCats model cs
        = ((allEntries cs).find?
            (fun e => decide (lowerCase e.2.2.model = lowerCase model))).map
            (fun e => mkDetail e.1 e.2.1 e.2.2) := by
  intro cs
  induction cs with
  | nil => rfl
  | cons c cs ih =>
    rw [getByModelScanCats, getByModelScanSubcats_eq model c.category_name c.subcategories]
    unfold allEntries
    rw [List.map_cons, List.flatten_cons, List.find?_append]
    cases h : ((c.subcategories.map (fun s =>
        s.products.map (fun p => (c.category_name, s.name, p)))).flatten).find?
        (fun e => decide (lowerCase e.2.2.model = lowerCase model)) with
    | none => simp [h, ih, Option.or, allEntries]
    | some e => simp [h, Option.or]

/-- Claim C4: get_product_by_model compares the queried model
case-insensitively for exact equality against each product's model field
in catalog traversal order and returns the first match annotated with its
owning category and subcategory names and including raw_text; on a miss
it returns a found:false message carrying the queried model string. -/
theorem claim_C4_get_by_model (data : List ProductCategory) (model : Str) :
    getProductByModel data model
      = (match (allEntries data).find?
            (fun e => decide (lowerCase e.2.2.model = lowerCase model)) with
         | some e => .found (mkDetail e.1 e.2.1 e.2.2)
         | none => .notFound (notFoundModelMsg model)) ∧
    includes (notFoundModelMsg model) model = true := by
  constructor
  · unfold getProductByModel
    rw [getByModelScanCats_eq]
    cases h : (allEntries data).find?
        (fun e => decide (lowerCase e.2.2.model = lowerCase model)) <;> simp [h]
  · unfold notFoundModelMsg
    rw [List.append_assoc]
    exact includes_append_self _ _ _

theorem find?_key_eq {α β : Type} [DecidableEq β] (key : α → β) :
    ∀ (l : List α) (x : α), x ∈ l → l.Pairwise (fun a b => key a ≠ key b) →
      l.find? (fun y => decide (key y = key x)) = some x := by
  intro l
  induction l with
  | nil => intro x hx; cases hx
  | cons a l ih =>
    intro x hx hpw
    rcases List.mem_cons.mp hx with rfl | hx2
    · exact List.find?_cons_of_pos _ (by simp)
    · have hne : key a ≠ key x := (List.pairwise_cons.mp hpw).1 x hx2
      rw [List.find?_cons_of_neg _ (by simpa using hne)]
      exact ih x hx2 (List.pairwise_cons.mp hpw).2

/-- Claim C5: under the catalog invariants of the data model (unique
category ids, case-insensitively unique non-empty subcategory names
within a category), the product_count that list_categories reports for a
subcategory equals the total_products that get_category_products reports
when called with that category's id and that subcategory's name. -/
theorem claim_C5_count_consistency (data : List ProductCategory) (c : ProductCategory)
    (s : Subcategory) (limit : Nat)
    (hc : c ∈ data) (hs : s ∈ c.subcategories)
    (hids : data.Pairwise (fun a b => a.category_id ≠ b.category_id))
    (hnames : c.subcategories.Pairwise (fun a b => lowerCase a.name ≠ lowerCase b.name))
    (hne : s.name ≠ []) :
    ∃ cv ∈ (listCategories data).categories, cv.category_id = c.category_id ∧
      ∃ sv ∈ cv.subcategories, sv.name = s.name ∧
        totalProductsOf (getCategoryProducts data c.category_id (some s.name) limit)
          = some sv.product_count := by
  have hfind : data.find? (fun y => decide (y.category_id = c.category_id)) = some c :=
    find?_key_eq (fun y => y.category_id) data c hc hids
  have hfinds : c.subcategories.find? (fun y => decide (lowerCase y.name = lowerCase s.name))
      = some s := find?_key_eq (fun y => lowerCase y.name) c.subcategories s hs hnames
  have hemp : s.name.isEmpty = false := by
    cases hsn : s.name with
    | nil => exact absurd hsn hne
    | cons a t => rfl
  refine ⟨CategoryListView.mk c.category_id c.category_name c.stats
      (c.subcategories.map (fun t => SubcatCountView.mk t.name t.products.length)),
      List.mem_map_of_mem _ hc, rfl, ?_⟩
  refine ⟨SubcatCountView.mk s.name s.products.length, List.mem_map_of_mem _ hs, rfl, ?_⟩
  unfold getCategoryProducts
  rw [hfind]
  simp only [hemp, Bool.false_eq_true, if_false, hfinds]
  unfold mkCategoryOk totalProductsOf
  simp [List.length_map]

/-- Claim C5 witness: a two-category catalog with two subcategories. -/
theorem claim_C5_witness :
    (exCat5 ∈ exData5 ∧ exSubcatB ∈ exCat5.subcategories ∧
      exData5.Pairwise (fun a b => a.category_id ≠ b.category_id) ∧
      exCat5.subcategories.Pairwise (fun a b => lowerCase a.name ≠ lowerCase b.name) ∧
      exSubcatB.name ≠ []) ∧
    (∃ cv ∈ (listCategories exData5).categories, cv.category_id = exCat5.category_id ∧
      ∃ sv ∈ cv.subcategories, sv.name = exSubcatB.name ∧
        totalProductsOf (getCategoryProducts exData5 exCat5.category_id (some exSubcatB.name) 20)
          = some sv.product_count) :=
  ⟨⟨by decide, by decide, by decide, by decide, by decide⟩,
    claim_C5_count_consistency exData5 exCat5 exSubcatB 20
      (by decide) (by decide) (by decide) (by decide) (by decide)⟩

/-- Claim C6: get_category_products with a category_id matching no stored
id (exact, case-sensitive comparison) returns a found:false message
naming that id; with a stored id (the first match of the exact lookup)
and no subcategory_name it returns total_products equal to the sum of the
product counts of all that category's subcategories, the products being
the subcategories' products concatenated in source order (then capped by
`limit` for display). -/
theorem claim_C6_category_products (data : List ProductCategory) (id : Str)
    (subn : Option Str) (limit : Nat) (c : ProductCategory) :
    ((∀ x ∈ data, x.category_id ≠ id) →
      getCategoryProducts data id subn limit = .notFound (catNotFoundMsg id) ∧
      includes (catNotFoundMsg id) id = true) ∧
    (data.find? (fun y => decide (y.category_id = id)) = some c →
      getCategoryProducts data id none limit
        = .ok c.category_name none ((c.subcategories.map (fun s => s.products.length)).sum)
            (((categoryAllProducts c).take limit).map toCategoryProductView).length
            (((categoryAllProducts c).take limit).map toCategoryProductView)) := by
  constructor
  · intro hmiss
    have hfind : data.find? (fun y => decide (y.category_id = id)) = none := by
      rw [List.find?_eq_none]
      intro x hx
      simpa using hmiss x hx
    constructor
    · unfold getCategoryProducts
      rw [hfind]
    · unfold catNotFoundMsg
      rw [List.append_assoc]
      exact includes_append_self _ _ _
  · intro hfind
    have htot : (categoryAllProducts c).length
        = (c.subcategories.map (fun s => s.products.length)).sum := by
      unfold categoryAllProducts
      rw [List.length_flatten, List.map_map]
      congr 1
      apply List.map_congr_left
      intro s hs
      simp [Function.comp, List.length_map]
    unfold getCategoryProducts
    rw [hfind, ← htot]
    rfl

/-- Claim C6 witness: unknown id "C2" misses; known id "C1" sums the
subcategory counts. -/
theorem claim_C6_witness :
    ((∀ x ∈ exData1, x.category_id ≠ "C2".data) ∧
      (getCategoryProducts exData1 ("C2".data) none 20 = .notFound (catNotFoundMsg ("C2".data)) ∧
        includes (catNotFoundMsg ("C2".data)) ("C2".data) = true)) ∧
    ((exData1.find? (fun y => decide (y.category_id = "C1".data)) = some exCat1) ∧
      getCategoryProducts exData1 ("C1".data) none 20
        = .ok exCat1.category_name none
            ((exCat1.subcategories.map (fun s => s.products.length)).sum)
            (((categoryAllProducts exCat1).take 20).map toCategoryProductView).length
            (((categoryAllProducts exCat1).take 20).map toCategoryProductView)) :=
  ⟨⟨by decide, (claim_C6_category_products exData1 ("C2".data) none 20 exCat1).1 (by decide)⟩,
    ⟨by decide, (claim_C6_category_products exData1 ("C1".data) none 20 exCat1).2 (by decide)⟩⟩

/-- Claim C7: when ingestion fails the store holds the empty catalog, and
on the empty catalog every operation still returns a well-formed result:
search_products returns an empty result sequence, get_product_by_model
returns a found:false message, list_categories reports zero categories,
and get_category_products reports found:false for every category_id. -/
theorem claim_C7_graceful_empty (e : Str) (kw : Str) (category : Option Str)
    (mn mx : Option Nat) (lim : Nat) (model id : Str) (subn : Option Str) (lim2 : Nat) :
    loadProductData (.error e) = [] ∧
    searchProducts [] kw category mn mx lim = ⟨0, []⟩ ∧
    getProductByModel [] model = .notFound (notFoundModelMsg model) ∧
    listCategories [] = ⟨0, []⟩ ∧
    getCategoryProducts [] id subn lim2 = .notFound (catNotFoundMsg id) :=
  ⟨rfl, rfl, rfl, rfl, rfl⟩

/-- Claim C8: every operation is a pure, deterministic read: the
dispatcher leaves the catalog unchanged, equal requests against the same
state produce equal responses, and a later call observes the same state
as if the earlier call had not happened. -/
theorem claim_C8_purity (st : ServerState) (r1 r2 : ToolRequest) :
    (handleToolCall st r1).2 = st ∧
    (r1 = r2 → (handleToolCall st r1).1 = (handleToolCall st r2).1) ∧
    handleToolCall (handleToolCall st r1).2 r2 = handleToolCall st r2 := by
  have h2 : (handleToolCall st r1).2 = st := by cases r1 <;> rfl
  exact ⟨h2, fun h => by rw [h], by rw [h2]⟩

/-- Claim C8 witness: list_categories twice on the example state. -/
theorem claim_C8_witness :
    ((ToolRequest.list_categories = ToolRequest.list_categories) ∧
      (handleToolCall exState .list_categories).2 = exState) ∧
    (handleToolCall exState .list_categories).1
      = (handleToolCall exState .list_categories).1 :=
  ⟨⟨rfl, (claim_C8_purity exState .list_categories .list_categories).1⟩,
    (claim_C8_purity exState .list_categories .list_categories).2.1 rfl⟩

theorem matchesKeyword_nil (p : ProductSpec) : matchesKeyword [] p = true :=
  includes_nil _

theorem allMatches_nil_kw (data : List ProductCategory) (category : Option Str)
    (mn mx : Option Nat) :
    allMatches data [] category mn mx = allCatPriceHits data category mn mx := by
  unfold allMatches allCatPriceHits catHits subcatHits productHits
  congr 1
  apply List.map_congr_left
  intro c hc
  congr 1
  apply List.map_congr_left
  intro s hs
  congr 1
  apply List.filter_congr
  intro p hp
  simp [productMatches, matchesKeyword_nil p]

/-- Claim C9: the empty-string keyword matches every product (the empty
string is a substring of every combined search text), so for a positive
limit, search_products with keyword "" returns the first `limit` products
passing the category and price filters, in traversal order. (Amended:
with limit = 0 the at-the-limit push quirk of C1 applies, see the
counterexample.) -/
theorem claim_C9_empty_keyword (data : List ProductCategory) (category : Option Str)
    (mn mx : Option Nat) (limit : Nat) (h : 1 ≤ limit) :
    (∀ p, matchesKeyword [] p = true) ∧
    (searchProducts data [] category mn mx limit).results
      = ((allCatPriceHits data category mn mx).take limit).map toSearchView := by
  refine ⟨matchesKeyword_nil, ?_⟩
  rw [searchProducts_eq_take data [] category mn mx limit h]
  simp only
  rw [allMatches_nil_kw]

/-- Claim C9 witness: empty keyword on the example catalog, limit 10. -/
theorem claim_C9_witness :
    1 ≤ 10 ∧
    ((∀ p, matchesKeyword [] p = true) ∧
      (searchProducts exData1 [] none none none 10).results
        = ((allCatPriceHits exData1 none none none).take 10).map toSearchView) :=
  ⟨by decide, claim_C9_empty_keyword exData1 none none none 10 (by decide)⟩

/-- Claim C9 counterexample: with limit = 0 the call still returns the
first passing product instead of the first zero products. -/
theorem claim_C9_counterexample :
    (searchProducts exData1 [] none none none 0).results
      ≠ ((allCatPriceHits exData1 none none none).take 0).map toSearchView := by decide

/-- Claim C10: get_category_products with subcategory_name equal to the
empty string behaves exactly as if subcategory_name were omitted
(`if (subcategory_name)` is falsy on ""): same result, subcategory_filter
null, and no subcategory not-found result. -/
theorem claim_C10_empty_subcategory (data : List ProductCategory) (id : Str) (limit : Nat) :
    getCategoryProducts data id (some []) limit = getCategoryProducts data id none limit ∧
    subFilterOf (getCategoryProducts data id (some []) limit) = none := by
  cases h : data.find? (fun y => decide (y.category_id = id)) with
  | none =>
    unfold getCategoryProducts
    rw [h]
    exact ⟨rfl, rfl⟩
  | some c =>
    unfold getCategoryProducts
    rw [h]
    exact ⟨rfl, rfl⟩
